import Mathlib

/-!
Verification development for the dsmeta dataset-annotation pipeline.

The definitions below are a shallow embedding of the Python sources under
src/dsmeta: the routing decision of nodes/web_search.py, the response
validation of nodes/preliminary_analysis.py, the status updates of the
LangGraph pipeline (graph.py plus the node modules), the retry/cooldown
logic of monitor.py, and the artifact persistence of nodes/write_outputs.py.
Python floats are modelled as rationals, Python dicts carrying JSON data as
association lists over a JSON value type, and fallible Python evaluation as
Except.
-/

/-- Lowercase a string into a character list (models Python str.lower()). -/
def lowerL (s : String) : List Char := s.data.map Char.toLower

/-- Substring check on character lists (models the Python `in` operator on
strings); an empty needle is contained in every haystack. -/
def containsSub (hay needle : List Char) : Bool :=
  if needle.isPrefixOf hay then true
  else
    match hay with
    | [] => false
    | _ :: t => containsSub t needle

/-- Does the predicate hold at some suffix position of the list? Used to
model an unanchored regex search. -/
def anyPos (f : List Char → Bool) (hay : List Char) : Bool :=
  f hay ||
    match hay with
    | [] => false
    | _ :: t => anyPos f t

/-- Position matcher for the regex alternative `v\d+`. -/
def vDigitAt : List Char → Bool
  | 'v' :: c :: _ => c.isDigit
  | _ => false

/-- Position matcher for the regex alternative `20\d{2}`. -/
def year20At : List Char → Bool
  | '2' :: '0' :: c :: d :: _ => c.isDigit && d.isDigit
  | _ => false

/-- Models `re.search(r'v\d+|version|20\d{2}', name_lower)` from
`_is_likely_public_dataset` (web_search.py line 413). -/
def version_year_pattern (l : List Char) : Bool :=
  anyPos vDigitAt l || containsSub l "version".data || anyPos year20At l

/-- JSON-style values held in the Python dicts the pipeline passes around. -/
inductive JValue where
  | jnull
  | jbool (b : Bool)
  | jnum (q : ℚ)
  | jstr (s : String)
  | jarr (n : Nat)
  | jobj (n : Nat)
deriving DecidableEq, Repr

/-- Python truthiness of a JSON value (`jarr`/`jobj` carry their size, the
only attribute truthiness inspects). -/
def truthy : JValue → Bool
  | .jnull => false
  | .jbool b => b
  | .jnum q => decide (q ≠ 0)
  | .jstr s => decide (s ≠ "")
  | .jarr n => decide (n ≠ 0)
  | .jobj n => decide (n ≠ 0)

/-- Numeric reading of a Python value: ints/floats are numbers and bools are
their int values (Python bool is a subclass of int); anything else has no
numeric reading. -/
def pyNumVal : JValue → Option ℚ
  | .jnum q => some q
  | .jbool b => some (if b then 1 else 0)
  | _ => none

/-- Python `v < q` against a float: defined for numbers and bools, a
TypeError (modelled as `.error`) otherwise. -/
def pyLtNum (v : JValue) (q : ℚ) : Except Unit Bool :=
  match pyNumVal v with
  | some x => .ok (decide (x < q))
  | none => .error ()

/-- Python `v.lower()`: defined for strings only, an AttributeError
(modelled as `.error`) otherwise. -/
def pyLowerStr : JValue → Except Unit (List Char)
  | .jstr s => .ok (lowerL s)
  | _ => .error ()

/-- The `ProcessingStatus` enum of models.py. -/
inductive ProcessingStatus where
  | pending
  | processing
  | success
  | failed
  | retry
deriving DecidableEq, Repr

/-- The `preliminary` dict of the pipeline state, restricted to the keys the
routing decision reads (web_search.py `decide_need_search`). `none` means
the key is absent. -/
structure Prelim where
  source : Option JValue := none
  source_url : Option JValue := none
  license : Option JValue := none
  citation : Option JValue := none
  confidence_score : Option JValue := none
  description : Option JValue := none
deriving DecidableEq, Repr

/-- Number of missing entries among source, source_url, license, citation:
a key that is absent, or whose value is falsy, counts as missing
(web_search.py lines 331-344, `if not preliminary.get(...)`). -/
def missingCount (p : Prelim) : Nat :=
  [p.source, p.source_url, p.license, p.citation].countP
    (fun o => !truthy (o.getD .jnull))

/-- The fixed indicator token list of `_is_likely_public_dataset`
(web_search.py lines 400-404). -/
def public_indicators : List String :=
  ["benchmark", "bench", "eval", "test", "challenge", "competition",
   "coco", "imagenet", "bert", "glue", "squad", "wiki", "common",
   "open", "public", "arxiv", "paper", "official"]

/-- Models `_is_likely_public_dataset` (web_search.py lines 391-416): empty name is
falsy and yields False; otherwise the lowered description is read (an
AttributeError if the description value is not a string propagates to the
caller), indicator tokens are matched against the lowered name and the
lowered description, and finally the version/year regex is tried on the
lowered name. -/
def is_likely_public_dataset (dataset_name : String) (p : Prelim) :
    Except Unit Bool :=
  if dataset_name = "" then .ok false
  else
    match pyLowerStr (p.description.getD (.jstr "")) with
    | .error e => .error e
    | .ok desc =>
      let nameL := lowerL dataset_name
      .ok (public_indicators.any
            (fun ind => containsSub nameL ind.data || containsSub desc ind.data) ||
           version_year_pattern nameL)

/-- Body of the try-block of `decide_need_search` (web_search.py lines
320-358). The confidence value defaults to 0.0 when the key is absent;
comparing a non-numeric value raises (line 348), and the public-dataset
heuristic may raise on a non-string description (line 351); both are
modelled as `.error`. -/
def decideCore (dataset_name : String) (p : Prelim) : Except Unit Bool :=
  match pyLtNum (p.confidence_score.getD (.jnum 0)) (7 / 10) with
  | .error e => .error e
  | .ok lowConf =>
    match is_likely_public_dataset dataset_name p with
    | .error e => .error e
    | .ok isKnown =>
      .ok (decide (2 ≤ missingCount p) || lowConf || isKnown)

/-- Models `decide_need_search` (web_search.py lines 310-388): the try-block value,
with any internal error defaulting to need_search = true (lines 378-388). -/
def decide_need_search (dataset_name : String) (p : Prelim) : Bool :=
  match decideCore dataset_name p with
  | .ok b => b
  | .error _ => true

/-- The confidence value read by the decision is numeric (or absent, read
as 0.0). -/
def confWellTyped (p : Prelim) : Bool :=
  (pyNumVal (p.confidence_score.getD (.jnum 0))).isSome

/-- The description value read by the heuristic is a string (or absent,
read as ""). -/
def descWellTyped (p : Prelim) : Bool :=
  match p.description.getD (.jstr "") with
  | .jstr _ => true
  | _ => false

/-- The numeric confidence value, with a missing score read as 0.0. -/
def confValue (p : Prelim) : ℚ :=
  (pyNumVal (p.confidence_score.getD (.jnum 0))).getD 0

/-- The public-dataset heuristic as a plain Boolean (its value on inputs
where it cannot raise). -/
def likelyPublicB (dataset_name : String) (p : Prelim) : Bool :=
  match is_likely_public_dataset dataset_name p with
  | .ok b => b
  | .error _ => false

/-- A parsed JSON object as an association list (insertion order of a
Python dict; keys are unique in any dict produced by json.loads). -/
abbrev JObj := List (String × JValue)

/-- Python `obj.get(k)` / key lookup on a dict. -/
def jget (o : JObj) (k : String) : Option JValue :=
  (o.find? (fun e => e.1 == k)).map (fun e => e.2)

/-- Python `obj[k] = v` on a dict, observed through `jget`. -/
def jset (o : JObj) (k : String) (v : JValue) : JObj :=
  (k, v) :: o.filter (fun e => e.1 != k)

/-- The required fields of `_parse_llm_response`
(preliminary_analysis.py line 251). -/
def requiredFields : List String :=
  ["description", "modality", "use_case", "domain", "confidence_score"]

/-- The confidence check of `_parse_llm_response` (line 259):
`isinstance(confidence, (int, float)) and 0 <= confidence <= 1`; Python
bools are ints, so True/False always pass. -/
def confAcceptable : JValue → Bool
  | .jnum q => decide (0 ≤ q) && decide (q ≤ 1)
  | .jbool _ => true
  | _ => false

/-- Validation part of `_parse_llm_response` (preliminary_analysis.py lines
250-266), applied to the JSON object produced by json.loads: reject if any
required field is absent; replace a non-numeric or out-of-range
confidence_score by the default 0.5; default needs_web_search to False. -/
def parse_llm_response_validate (o : JObj) : Option JObj :=
  if requiredFields.all (fun k => (jget o k).isSome) then
    let conf := (jget o "confidence_score").getD (.jnum 0)
    let o1 := if confAcceptable conf then o
              else jset o "confidence_score" (.jnum (1 / 2))
    let o2 := if (jget o1 "needs_web_search").isSome then o1
              else jset o1 "needs_web_search" (.jbool false)
    some o2
  else none

/-- Status set by `preliminary_analysis` from the parse outcome
(preliminary_analysis.py lines 64-93): a rejected response fails the stage,
an accepted one keeps the run processing. -/
def preliminary_status (parsed : Option JObj) : ProcessingStatus :=
  match parsed with
  | none => .failed
  | some _ => .processing

/-- The nine nodes of the annotation graph (graph.py lines 78-86). -/
inductive PNode where
  | scan_and_parse
  | read_and_sample
  | preliminary_analysis
  | decide_need_search
  | web_search
  | synthesize_and_populate
  | validate_and_postprocess
  | generate_markdown
  | write_outputs
deriving DecidableEq, Repr

/-- The status carried by each node's returned update, as a function of
whether the node's body succeeded. Every return dict of every node includes
a `status` key, so the update overwrites the previous status. From the
sources: scan_and_parse, read_and_sample, preliminary_analysis,
generate_markdown and write_outputs return FAILED on error;
decide_need_search, web_search and synthesize_and_populate return
"processing" on both their normal and their exception paths;
validate_and_postprocess returns "failed" only when it has no metadata and
"processing" otherwise (including its exception fallback); only
write_outputs ever returns SUCCESS. -/
def nodeUpdate : PNode → Bool → ProcessingStatus
  | .scan_and_parse, ok => if ok then .processing else .failed
  | .read_and_sample, ok => if ok then .processing else .failed
  | .preliminary_analysis, ok => if ok then .processing else .failed
  | .decide_need_search, _ => .processing
  | .web_search, _ => .processing
  | .synthesize_and_populate, _ => .processing
  | .validate_and_postprocess, ok => if ok then .processing else .failed
  | .generate_markdown, ok => if ok then .processing else .failed
  | .write_outputs, ok => if ok then .success else .failed

/-- Node order of the graph (graph.py lines 89-118): linear, with
web_search present exactly when the routing decision chose to search. -/
def pipelineNodes (search : Bool) : List PNode :=
  [.scan_and_parse, .read_and_sample, .preliminary_analysis,
   .decide_need_search] ++
  (if search then [.web_search] else []) ++
  [.synthesize_and_populate, .validate_and_postprocess,
   .generate_markdown, .write_outputs]

/-- Status trace of a run: the initial PENDING (models.py line 201)
followed by the status of each executed node's update. -/
def runTrace (steps : List (PNode × Bool)) : List ProcessingStatus :=
  .pending :: steps.map (fun s => nodeUpdate s.1 s.2)

/-- The transition discipline asserted by the specification: a state may
stay put, pending may move to processing, and only processing may move to
success or failed. -/
def claimedTransition : ProcessingStatus → ProcessingStatus → Bool
  | a, b =>
    a == b ||
    (a == .pending && b == .processing) ||
    (a == .processing && (b == .success || b == .failed))

/-- A concrete full run in which the first node fails (for example a
missing dataset path) and every later node succeeds. -/
def steps0 : List (PNode × Bool) :=
  (pipelineNodes false).zip [false, true, true, true, true, true, true, true]

/-- Models `TaskExecutor.max_retries` (monitor.py line 88). -/
def max_retries : Nat := 3

/-- Models `TaskExecutor.handle_failed_task` (monitor.py lines 113-129) acting on
the per-path failure counter: below max_retries it increments the counter
and re-enqueues the path after a delay of 2^count * 60 seconds; otherwise
it abandons the path (no re-enqueue, counter untouched). The returned
option is the delay of the re-enqueue, if any. -/
def handle_failed_task (count : Nat) : Nat × Option Nat :=
  if count < max_retries then (count + 1, some (2 ^ count * 60))
  else (count, none)

/-- Effect of n consecutive failures of one path starting from a fresh
counter: the final counter value and the delays of the re-enqueues made. -/
def consecFailures : Nat → Nat × List Nat
  | 0 => (0, [])
  | n + 1 =>
    let prev := consecFailures n
    match handle_failed_task prev.1 with
    | (c, some d) => (c, prev.2 ++ [d])
    | (c, none) => (c, prev.2)

/-- Effect of one completed run on the per-path failure counter, from the
cleanup logic of monitor.py (lines 183-192): a successful run leaves the
executor's bookkeeping untouched; a failed run goes through
handle_failed_task. -/
def afterRunCounter (count : Nat) (success : Bool) : Nat :=
  if success then count else (handle_failed_task count).1

/-- Models `DatasetHandler.cooldown_time` (monitor.py line 33), in seconds. -/
def cooldown_time : ℚ := 5

/-- Capacity of the monitor's task queue (monitor.py line 138). -/
def queueCapacity : Nat := 1000

/-- State of the watcher handler: the per-path last accepted fire times
(`last_processed`) and the task queue contents. -/
structure HandlerState where
  lastProcessed : List (String × ℚ)
  queue : List String
deriving DecidableEq, Repr

/-- Lookup of a path's recorded fire time. -/
def lookupTime (l : List (String × ℚ)) (p : String) : Option ℚ :=
  (l.find? (fun e => e.1 == p)).map (fun e => e.2)

/-- Record a path's fire time (dict update, observed through lookupTime). -/
def setTime (l : List (String × ℚ)) (p : String) (t : ℚ) :
    List (String × ℚ) :=
  (p, t) :: l.filter (fun e => e.1 != p)

/-- Does the handler accept (rather than drop) an event for path p at time
t? From monitor.py lines 51-54: dropped exactly when the path fired before
and the elapsed time is below the cooldown. -/
def acceptsEvent (st : HandlerState) (p : String) (t : ℚ) : Bool :=
  match lookupTime st.lastProcessed p with
  | some t0 => !decide (t - t0 < cooldown_time)
  | none => true

/-- Models `DatasetHandler.on_created` (monitor.py lines 36-64): ignore non-
directory and non-matching events; drop events inside the cooldown window;
otherwise record the fire time and submit the path to the task queue
(put_nowait drops the submission, but not the recorded time, when the
queue is full). -/
def on_created (st : HandlerState) (isDir matchesPat : Bool) (p : String)
    (t : ℚ) : HandlerState :=
  if !isDir then st
  else if !matchesPat then st
  else if !acceptsEvent st p t then st
  else
    { lastProcessed := setTime st.lastProcessed p t,
      queue := if st.queue.length < queueCapacity then st.queue ++ [p]
               else st.queue }

/-- The files of a dataset directory, as a path-to-content map. -/
abbrev FS := List (String × String)

/-- Content of a file, if it exists. -/
def fsGet (fs : FS) (p : String) : Option String :=
  (fs.find? (fun e => e.1 == p)).map (fun e => e.2)

/-- Write content to a file (observed through fsGet). -/
def fsSet (fs : FS) (p : String) (c : String) : FS :=
  (p, c) :: fs.filter (fun e => e.1 != p)

/-- SHA-256 hex digest, modelled as an injective stand-in: equal inputs
have equal digests, and collisions between distinct inputs are not
modelled. -/
def sha256hex (s : String) : String := s

/-- Per-artifact outcome recorded in written_files
(write_outputs.py lines 84-116). -/
inductive WriteStatus where
  | written
  | unchanged
  | wfailed
deriving DecidableEq, Repr

/-- Models `_content_unchanged` (write_outputs.py lines 169-183): compare the
SHA-256 digests of the existing and the new content; an unreadable file
counts as changed. -/
def content_unchanged (fs : FS) (p : String) (newContent : String) : Bool :=
  match fsGet fs p with
  | some existing => sha256hex existing == sha256hex newContent
  | none => false

/-- A single write attempt (write_outputs.py lines 92-116): on success the
target holds the new content, on an I/O error (given by the oracle wOk)
the failure is recorded and the file system is unchanged. -/
def attempt_write (fs : FS) (wOk : String → Bool) (fn content : String) :
    WriteStatus × FS :=
  if wOk fn then (.written, fsSet fs fn content) else (.wfailed, fs)

/-- Processing of one artifact (write_outputs.py lines 70-116): an existing
target with unchanged content is skipped (the optional backup copy, which
never touches the target file, is not modelled); otherwise the write is
attempted. -/
def write_artifact (fs : FS) (wOk : String → Bool) (fn content : String) :
    WriteStatus × FS :=
  if (fsGet fs fn).isSome && content_unchanged fs fn content then
    (.unchanged, fs)
  else attempt_write fs wOk fn content

/-- The artifact loop of write_outputs: each artifact is processed in
order against the file system left by its predecessors, and every artifact
gets an entry in written_files. -/
def write_loop (fs : FS) (wOk : String → Bool) :
    List (String × String) → List (String × WriteStatus) × FS
  | [] => ([], fs)
  | (fn, c) :: rest =>
    let r := write_artifact fs wOk fn c
    let rec_ := write_loop r.2 wOk rest
    ((fn, r.1) :: rec_.1, rec_.2)

/-- Models `write_outputs` (write_outputs.py lines 17-148): fail with no artifact
entries when there are no artifacts or the dataset path does not exist;
otherwise process every artifact, then succeed exactly when at least one
entry is written or unchanged (lines 119-138). Returns the stage status,
the (filename, status) entries of written_files, and the final file
system. -/
def write_outputs_model (pathExists : Bool) (arts : List (String × String))
    (fs : FS) (wOk : String → Bool) :
    ProcessingStatus × List (String × WriteStatus) × FS :=
  if arts.isEmpty then (.failed, [], fs)
  else if !pathExists then (.failed, [], fs)
  else
    let r := write_loop fs wOk arts
    let successCount := r.1.countP
      (fun e => e.2 == WriteStatus.written || e.2 == WriteStatus.unchanged)
    if successCount == 0 then (.failed, r.1, r.2)
    else (.success, r.1, r.2)

/-- A search result in the unified format of web_search.py. -/
structure SearchResult where
  title : String
  url : String
  snippet : String
deriving DecidableEq, Repr

/-- The high-trust domain bonuses of `_calculate_relevance_score`
(web_search.py lines 283-289), in dict iteration order. -/
def domain_scores : List (String × ℚ) :=
  [("github.com", 8), ("huggingface.co", 7), ("arxiv.org", 6),
   ("paperswithcode.com", 5), ("kaggle.com", 4)]

/-- First matching domain bonus, with the loop's break after the first hit
(web_search.py lines 291-294). -/
def domain_bonus (url : List Char) : ℚ :=
  match domain_scores.find? (fun d => containsSub url d.1.data) with
  | some d => d.2
  | none => 0

/-- The relevance keyword list (web_search.py lines 297-300). -/
def relevant_keywords : List String :=
  ["dataset", "data", "repository", "repo", "license", "citation",
   "paper", "benchmark", "collection", "corpus"]

/-- The `f"{title} {snippet}".lower()` text scanned for keywords
(web_search.py line 302), built from the already-lowered title and
snippet. -/
def text_to_check (title snippet : String) : List Char :=
  (lowerL title ++ [' '] ++ lowerL snippet).map Char.toLower

/-- Bonus of +1 per relevance keyword found in title+snippet
(web_search.py lines 303-305). -/
def keyword_bonus (text : List Char) : ℚ :=
  ((relevant_keywords.filter (fun k => containsSub text k.data)).length : ℚ)

/-- Models `_calculate_relevance_score` (web_search.py lines 261-307): base 0,
+10 for the dataset name in the lowered title, +5 in the lowered URL, +2 in
the lowered snippet, plus the first matching domain bonus and +1 per
matched relevance keyword. -/
def relevance_score (r : SearchResult) (dataset_name : String) : ℚ :=
  let title := lowerL r.title
  let url := lowerL r.url
  let snippet := lowerL r.snippet
  let nameL := lowerL dataset_name
  (if containsSub title nameL then (10 : ℚ) else 0) +
  (if containsSub url nameL then (5 : ℚ) else 0) +
  (if containsSub snippet nameL then (2 : ℚ) else 0) +
  domain_bonus url +
  keyword_bonus (text_to_check r.title r.snippet)

/-- Stable insertion into a list sorted by descending score: the new
element goes after every element whose score is at least its own, matching
Python's stable sort with reverse=True. -/
def insert_desc (x : SearchResult × ℚ) :
    List (SearchResult × ℚ) → List (SearchResult × ℚ)
  | [] => [x]
  | h :: t => if h.2 < x.2 then x :: h :: t else h :: insert_desc x t

/-- Sort scored results by descending score
(web_search.py line 256). -/
def sort_desc : List (SearchResult × ℚ) → List (SearchResult × ℚ)
  | [] => []
  | h :: t => insert_desc h (sort_desc t)

/-- Models `_filter_results` (web_search.py lines 242-258): keep only results with
a strictly positive relevance score, paired with that score, sorted by
descending score. -/
def filter_results (results : List SearchResult) (dataset_name : String) :
    List (SearchResult × ℚ) :=
  sort_desc (results.filterMap (fun r =>
    let s := relevance_score r dataset_name
    if 0 < s then some (r, s) else none))

/-- Does a result carry any scoring signal at all: the dataset name in its
lowered title, URL or snippet, a high-trust domain in its URL, or a
relevance keyword in title+snippet? -/
def has_signal (r : SearchResult) (dataset_name : String) : Bool :=
  containsSub (lowerL r.title) (lowerL dataset_name) ||
  containsSub (lowerL r.url) (lowerL dataset_name) ||
  containsSub (lowerL r.snippet) (lowerL dataset_name) ||
  domain_scores.any (fun d => containsSub (lowerL r.url) d.1.data) ||
  relevant_keywords.any
    (fun k => containsSub (text_to_check r.title r.snippet) k.data)

/-- Claim C4: for every dataset path, the fail-and-retry cycle is bounded.
On a failure with counter value c below max_retries (3), the counter is
incremented to c+1 and the path re-enqueued after a delay of 2^c * 60
seconds (so the k-th consecutive failure, with counter k-1, gets delay
2^(k-1) * 60); a failure with the counter at max_retries produces no
re-enqueue; over any number n of consecutive failures from a fresh counter
exactly min n 3 re-enqueues happen with the delays 60, 120, 240, and the
counter never exceeds max_retries. -/
theorem retry_bound_spec :
    (∀ c, c < max_retries →
       handle_failed_task c = (c + 1, some (2 ^ c * 60))) ∧
    (∀ c, max_retries ≤ c → handle_failed_task c = (c, none)) ∧
    (∀ n, consecFailures n = (min n max_retries,
       (List.range (min n max_retries)).map (fun i => 2 ^ i * 60))) ∧
    (∀ n, (consecFailures n).1 ≤ max_retries) := by
  have hstep : ∀ n, consecFailures n = (min n max_retries,
      (List.range (min n max_retries)).map (fun i => 2 ^ i * 60)) := by
    intro n
    induction n with
    | zero => simp [consecFailures]
    | succ n ih =>
      unfold consecFailures
      rw [ih]
      by_cases h : n < max_retries
      · have h1 : min n max_retries = n := by omega
        have h2 : min (n + 1) max_retries = n + 1 := by omega
        simp only [h1, h2, handle_failed_task, if_pos h, List.range_succ,
          List.map_append, List.map_cons, List.map_nil]
      · have h1 : min n max_retries = max_retries := by omega
        have h2 : min (n + 1) max_retries = max_retries := by omega
        simp only [h1, h2, handle_failed_task]
        rw [if_neg (by omega)]
  refine ⟨?_, ?_, hstep, ?_⟩
  · intro c hc
    simp [handle_failed_task, hc]
  · intro c hc
    simp [handle_failed_task, Nat.not_lt.mpr hc]
  · intro n
    rw [hstep n]
    simp [Nat.min_le_right]

/-- Claim C4 witness: the third failure (counter 2) re-enqueues with a
240-second delay and caps the counter at 3, the fourth failure (counter 3)
does not re-enqueue, and four consecutive failures produce exactly three
re-enqueues with delays 60, 120, 240. -/
theorem retry_bound_spec_witness :
    handle_failed_task 2 = (3, some 240) ∧
    handle_failed_task 3 = (3, none) ∧
    consecFailures 4 = (3, [60, 120, 240]) :=
  ⟨(retry_bound_spec.1 2 (by decide)).trans (by decide),
   (retry_bound_spec.2.1 3 (by decide)).trans (by decide),
   (retry_bound_spec.2.2.1 4).trans (by decide)⟩

/-- Claim C5 counterexample: a path with failure counter 2 whose next run
completes with status success keeps counter 2 — the counter is not reset
to zero, contrary to the claim. -/
theorem success_resets_counter_counterexample :
    afterRunCounter 2 true = 2 ∧ ¬afterRunCounter 2 true = 0 := by
  decide

/-- Claim C5 amended: a run that completes with status success leaves the
per-path failure counter unchanged — the executor never resets it — so
previously accumulated failures keep counting against the maxRetries
budget. -/
theorem success_keeps_counter (c : Nat) : afterRunCounter c true = c := by
  simp [afterRunCounter]

/-- Claim C6: if a directory-creation event for a matching path is accepted
at time t1 and a second creation event for the same path arrives at time t2
within the cooldown window (t2 - t1 < 5), then exactly one submission is
made: the first event records its time and enqueues the path (queue not
full), and the second event leaves the handler state untouched. -/
theorem cooldown_dedup_spec (st : HandlerState) (p : String) (t1 t2 : ℚ)
    (hAcc : acceptsEvent st p t1 = true)
    (hCap : st.queue.length < queueCapacity)
    (hWin : t2 - t1 < cooldown_time) :
    on_created (on_created st true true p t1) true true p t2 =
      on_created st true true p t1 ∧
    (on_created st true true p t1).queue = st.queue ++ [p] := by
  have hst1 : on_created st true true p t1 =
      { lastProcessed := setTime st.lastProcessed p t1,
        queue := st.queue ++ [p] } := by
    simp [on_created, hAcc, hCap]
  have hdrop : acceptsEvent
      { lastProcessed := setTime st.lastProcessed p t1,
        queue := st.queue ++ [p] } p t2 = false := by
    simp [acceptsEvent, lookupTime, setTime, List.find?, hWin]
  refine ⟨?_, by rw [hst1]⟩
  rw [hst1]
  simp [on_created, hdrop]

/-- Claim C6 witness: from an empty handler state, events for path "ds" at
times 0 and 3 yield a single enqueue of "ds". -/
theorem cooldown_dedup_spec_witness :
    on_created (on_created ⟨[], []⟩ true true "ds" 0) true true "ds" 3 =
      on_created ⟨[], []⟩ true true "ds" 0 ∧
    (on_created ⟨[], []⟩ true true "ds" 0).queue = [] ++ ["ds"] :=
  cooldown_dedup_spec ⟨[], []⟩ "ds" 0 3 (by decide) (by decide)
    (by norm_num [cooldown_time])

/-- Claim C3 counterexample: in the run steps0, where the first node
(scan_and_parse) fails — for example because the dataset path does not
exist — and every later node succeeds, the status moves from pending
directly to failed, and then from failed back to processing; both
transitions fall outside the claimed discipline
pending→processing→{success,failed}. -/
theorem status_transition_counterexample :
    (runTrace steps0).get? 0 = some .pending ∧
    (runTrace steps0).get? 1 = some .failed ∧
    claimedTransition .pending .failed = false ∧
    (runTrace steps0).get? 2 = some .processing ∧
    claimedTransition .failed .processing = false := by
  decide

/-- Claim C3 amended: each node's update overwrites the status with
processing or failed (failed is reachable directly from pending, and a
failed status is overwritten by a later node's processing, because node
failures do not halt the graph), except that write_outputs — and only
write_outputs — can set success; write_outputs is the last node of every
pipeline, so a trace showing success at some position was produced by
write_outputs at the preceding step, and every trace starts at pending. -/
theorem status_success_only_from_write_outputs :
    (∀ (n : PNode) (b : Bool), nodeUpdate n b = .success →
       n = .write_outputs) ∧
    (∀ (steps : List (PNode × Bool)) (i : Nat),
       (runTrace steps).get? (i + 1) = some .success →
       ∃ b, steps.get? i = some (.write_outputs, b)) ∧
    (∀ search : Bool,
       (pipelineNodes search).getLast? = some .write_outputs) ∧
    (∀ steps : List (PNode × Bool),
       (runTrace steps).get? 0 = some .pending) := by
  have honly : ∀ (n : PNode) (b : Bool), nodeUpdate n b = .success →
      n = .write_outputs := by
    intro n b h
    cases n <;> cases b <;> simp_all [nodeUpdate]
  refine ⟨honly, ?_, ?_, ?_⟩
  · intro steps i h
    have hmap : (steps.map (fun s => nodeUpdate s.1 s.2)).get? i =
        some .success := by
      simpa [runTrace] using h
    rw [List.get?_map] at hmap
    cases hs : steps.get? i with
    | none => rw [hs] at hmap; simp at hmap
    | some s =>
      rw [hs] at hmap
      simp only [Option.map_some', Option.some.injEq] at hmap
      obtain ⟨n, b⟩ := s
      have hn := honly n b hmap
      subst hn
      exact ⟨b, rfl⟩
  · intro search
    cases search <;> decide
  · intro steps
    simp [runTrace]

/-- Claim C3 amended witness: a one-step run by write_outputs reaches
success, and the theorem recovers write_outputs as the producing node. -/
theorem status_success_witness :
    ∃ b, [((PNode.write_outputs), true)].get? 0 =
      some (.write_outputs, b) :=
  status_success_only_from_write_outputs.2.1 [(.write_outputs, true)] 0
    (by decide)

/-- A well-formed analysis response that lacks the confidence_score key but
contains all other required fields. -/
def respMissingConf : JObj :=
  [("description", .jstr "a dataset"), ("modality", .jstr "code"),
   ("use_case", .jstr "analysis"), ("domain", .jstr "general")]

/-- Claim C2 counterexample: the response respMissingConf, a well-formed
JSON object with every required field except confidence_score, is rejected
by the parser (None), and the analysis stage sets status failed — the
response is not accepted with a defaulted confidence of 0.5. -/
theorem missing_confidence_counterexample :
    parse_llm_response_validate respMissingConf = none ∧
    preliminary_status (parse_llm_response_validate respMissingConf) =
      .failed := by
  decide

/-- A find? search is unaffected by filtering with a predicate that holds wherever
the search predicate does. -/
theorem find_filter_preserve {α : Type} (l : List α) (p q : α → Bool)
    (h : ∀ e, p e = true → q e = true) :
    (l.filter q).find? p = l.find? p := by
  induction l with
  | nil => rfl
  | cons a l ih =>
    by_cases hp : p a = true
    · have hq := h a hp
      rw [List.filter_cons_of_pos hq, List.find?_cons_of_pos _ hp,
        List.find?_cons_of_pos _ hp]
    · by_cases hq : q a = true
      · rw [List.filter_cons_of_pos hq,
          List.find?_cons_of_neg _ (by simp [hp]),
          List.find?_cons_of_neg _ (by simp [hp]), ih]
      · rw [List.filter_cons_of_neg (by simp [hq]),
          List.find?_cons_of_neg _ (by simp [hp]), ih]

/-- Updating a dict key and reading it back yields the new value. -/
theorem jget_jset_self (o : JObj) (k : String) (v : JValue) :
    jget (jset o k v) k = some v := by
  unfold jget jset
  rw [List.find?_cons_of_pos _ (by simp)]
  rfl

/-- Updating a dict key leaves every other key unchanged. -/
theorem jget_jset_ne (o : JObj) (k k2 : String) (v : JValue)
    (h : k2 ≠ k) :
    jget (jset o k v) k2 = jget o k2 := by
  unfold jget jset
  rw [List.find?_cons_of_neg _ (by simp [Ne.symm h]),
    find_filter_preserve]
  intro e he
  simp only [beq_iff_eq] at he
  simp [he, h]

/-- Claim C2 amended: a response lacking the confidence_score key is
rejected by _parse_llm_response (None) and the analysis stage sets
status=failed; the 0.5 default is substituted only when confidence_score
is present but not a number in [0, 1], in which case the response is
accepted and the run stays processing. -/
theorem missing_confidence_amended :
    (∀ o : JObj, jget o "confidence_score" = none →
       parse_llm_response_validate o = none ∧
       preliminary_status (parse_llm_response_validate o) = .failed) ∧
    (∀ o : JObj,
       requiredFields.all (fun k => (jget o k).isSome) = true →
       confAcceptable ((jget o "confidence_score").getD (.jnum 0)) =
         false →
       ∃ o2, parse_llm_response_validate o = some o2 ∧
         jget o2 "confidence_score" = some (.jnum (1 / 2)) ∧
         preliminary_status (parse_llm_response_validate o) =
           .processing) := by
  constructor
  · intro o h
    have hall : requiredFields.all (fun k => (jget o k).isSome) = false := by
      simp [requiredFields, h]
    refine ⟨?_, ?_⟩ <;>
      simp [parse_llm_response_validate, hall, preliminary_status]
  · intro o hall hconf
    have hne : ("needs_web_search" : String) ≠ "confidence_score" := by
      decide
    unfold parse_llm_response_validate
    rw [hall]
    simp only [if_true, hconf, if_false, Bool.false_eq_true, ite_false]
    by_cases hw :
        (jget (jset o "confidence_score" (.jnum (1 / 2)))
          "needs_web_search").isSome = true
    · rw [if_pos hw]
      exact ⟨_, rfl, jget_jset_self o _ _, rfl⟩
    · rw [if_neg hw]
      refine ⟨_, rfl, ?_, rfl⟩
      rw [jget_jset_ne _ _ _ _ (by decide)]
      exact jget_jset_self o _ _

/-- A response whose confidence_score is present but a string. -/
def respBadConf : JObj :=
  [("description", .jstr "a dataset"), ("modality", .jstr "code"),
   ("use_case", .jstr "analysis"), ("domain", .jstr "general"),
   ("confidence_score", .jstr "high")]

/-- Claim C2 amended witness: respMissingConf is rejected with a failed
stage, and respBadConf (confidence present but non-numeric) is accepted
with confidence defaulted to 0.5 and the run still processing. -/
theorem missing_confidence_amended_witness :
    (parse_llm_response_validate respMissingConf = none ∧
     preliminary_status (parse_llm_response_validate respMissingConf) =
       .failed) ∧
    (∃ o2, parse_llm_response_validate respBadConf = some o2 ∧
      jget o2 "confidence_score" = some (.jnum (1 / 2)) ∧
      preliminary_status (parse_llm_response_validate respBadConf) =
        .processing) :=
  ⟨missing_confidence_amended.1 respMissingConf (by decide),
   missing_confidence_amended.2 respBadConf (by decide) (by decide)⟩

/-- On a string-typed (or absent) description the public-dataset heuristic
cannot raise. -/
theorem is_likely_ok_of_descWellTyped (dataset_name : String) (p : Prelim)
    (h : descWellTyped p = true) :
    ∃ b, is_likely_public_dataset dataset_name p = .ok b := by
  unfold descWellTyped at h
  by_cases hn : dataset_name = ""
  · exact ⟨false, by simp [is_likely_public_dataset, hn]⟩
  · cases hd : p.description.getD (.jstr "") with
    | jstr s =>
      refine ⟨(public_indicators.any (fun ind =>
          containsSub (lowerL dataset_name) ind.data ||
          containsSub (lowerL s) ind.data) ||
        version_year_pattern (lowerL dataset_name)), ?_⟩
      unfold is_likely_public_dataset
      rw [if_neg hn, hd]
      rfl
    | jnull => rw [hd] at h; simp at h
    | jbool b => rw [hd] at h; simp at h
    | jnum q => rw [hd] at h; simp at h
    | jarr n => rw [hd] at h; simp at h
    | jobj n => rw [hd] at h; simp at h

/-- Claim C1: on well-typed inputs the routing decision returns
need_search = true exactly when the number of missing fields among
{source, source_url, license, citation} is at least 2, or the confidence
(missing read as 0.0) is below 0.7, or the name/description matches the
public-dataset heuristic; need_search = true whenever the confidence value
is a number below 0.7 (or the key is absent), regardless of every other
field; and any internal error of the decision defaults to
need_search = true. -/
theorem decide_need_search_correct :
    (∀ (dataset_name : String) (p : Prelim),
       confWellTyped p = true → descWellTyped p = true →
       decide_need_search dataset_name p =
         (decide (2 ≤ missingCount p) || decide (confValue p < 7 / 10) ||
          likelyPublicB dataset_name p)) ∧
    (∀ (dataset_name : String) (p : Prelim),
       (p.confidence_score.getD (.jnum 0) = .jnum 0 ∨
        ∃ q : ℚ, p.confidence_score.getD (.jnum 0) = .jnum q ∧
          q < 7 / 10) →
       decide_need_search dataset_name p = true) ∧
    (∀ (dataset_name : String) (p : Prelim) (e : Unit),
       decideCore dataset_name p = .error e →
       decide_need_search dataset_name p = true) := by
  refine ⟨?_, ?_, ?_⟩
  · intro dataset_name p hc hd
    have hnum : pyNumVal (p.confidence_score.getD (.jnum 0)) =
        some (confValue p) := by
      unfold confWellTyped at hc
      cases hx : pyNumVal (p.confidence_score.getD (.jnum 0)) with
      | none => rw [hx] at hc; simp at hc
      | some x => simp [confValue, hx]
    have hlt : pyLtNum (p.confidence_score.getD (.jnum 0)) (7 / 10) =
        .ok (decide (confValue p < 7 / 10)) := by
      simp [pyLtNum, hnum]
    obtain ⟨b, hb⟩ := is_likely_ok_of_descWellTyped dataset_name p hd
    have hlb : likelyPublicB dataset_name p = b := by
      simp [likelyPublicB, hb]
    simp [decide_need_search, decideCore, hlt, hb, hlb]
  · intro dataset_name p hq
    have hlow : pyLtNum (p.confidence_score.getD (.jnum 0)) (7 / 10) =
        .ok true := by
      rcases hq with h0 | ⟨q, hq, hql⟩
      · rw [h0]
        have h7 : (0 : ℚ) < 7 / 10 := by norm_num
        simp [pyLtNum, pyNumVal, h7]
      · rw [hq]
        simp [pyLtNum, pyNumVal, hql]
    unfold decide_need_search decideCore
    rw [hlow]
    cases hk : is_likely_public_dataset dataset_name p with
    | error e => rfl
    | ok b => simp
  · intro dataset_name p e h
    unfold decide_need_search
    rw [h]

/-- Well-typed preliminary data with nothing missing and high confidence. -/
def prelimFull : Prelim :=
  { source := some (.jstr "github"), source_url := some (.jstr "u"),
    license := some (.jstr "mit"), citation := some (.jstr "c"),
    confidence_score := some (.jnum (9 / 10)),
    description := some (.jstr "plain private files") }

/-- Preliminary data carrying only a low confidence score. -/
def prelimLow : Prelim :=
  { source := some (.jstr "github"), source_url := some (.jstr "u"),
    license := some (.jstr "mit"), citation := some (.jstr "c"),
    confidence_score := some (.jnum (1 / 2)),
    description := some (.jstr "plain private files") }

/-- Claim C1 witness: on the fully-populated high-confidence prelimFull the
decision equals its three-part disjunction (and is false), while the low
confidence of prelimLow alone forces the decision to true. -/
theorem decide_need_search_correct_witness :
    (decide_need_search "zqset" prelimFull =
       (decide (2 ≤ missingCount prelimFull) ||
        decide (confValue prelimFull < 7 / 10) ||
        likelyPublicB "zqset" prelimFull) ∧
     decide_need_search "zqset" prelimFull = false) ∧
    decide_need_search "zqset" prelimLow = true := by
  have h := decide_need_search_correct.1 "zqset" prelimFull (by decide)
    (by decide)
  refine ⟨⟨h, ?_⟩,
    decide_need_search_correct.2.1 "zqset" prelimLow
      (Or.inr ⟨1 / 2, rfl, by norm_num⟩)⟩
  rw [h]
  have h2 : decide (2 ≤ missingCount prelimFull) = false := by decide
  have h3 : likelyPublicB "zqset" prelimFull = false := by decide
  have h4 : decide (confValue prelimFull < 7 / 10) = false := by
    rw [show confValue prelimFull = 9 / 10 from rfl]
    simp only [decide_eq_false_iff_not]
    norm_num
  rw [h2, h3, h4]
  rfl

/-- Claim C8: for two search results identical except in their titles,
where one title contains the dataset name as a case-insensitive substring
and the other does not, and whose remaining score terms agree (the keyword
term computed on title+snippet is equal — the URL, snippet, and hence the
URL/snippet name terms and the domain bonus, are shared), the matching
result scores exactly 10 points more, hence strictly more. -/
theorem relevance_title_monotonic (dataset_name t1 t2 u s : String)
    (h1 : containsSub (lowerL t1) (lowerL dataset_name) = true)
    (h2 : containsSub (lowerL t2) (lowerL dataset_name) = false)
    (hk : keyword_bonus (text_to_check t1 s) =
      keyword_bonus (text_to_check t2 s)) :
    relevance_score ⟨t1, u, s⟩ dataset_name =
      relevance_score ⟨t2, u, s⟩ dataset_name + 10 ∧
    relevance_score ⟨t2, u, s⟩ dataset_name <
      relevance_score ⟨t1, u, s⟩ dataset_name := by
  unfold relevance_score
  simp only [h1, h2, if_true, if_false, hk, Bool.false_eq_true]
  constructor
  · ring
  · have hkb : (0 : ℚ) ≤ keyword_bonus (text_to_check t2 s) := by
      unfold keyword_bonus
      positivity
    nlinarith [hkb]

/-- Claim C8 witness: with dataset name "coco", the result titled
"COCO data" scores exactly 10 above, and strictly above, the otherwise
identical result titled "other data". -/
theorem relevance_title_monotonic_witness :
    relevance_score ⟨"COCO data", "https://e.org/x", "sample"⟩ "coco" =
      relevance_score ⟨"other data", "https://e.org/x", "sample"⟩ "coco"
        + 10 ∧
    relevance_score ⟨"other data", "https://e.org/x", "sample"⟩ "coco" <
      relevance_score ⟨"COCO data", "https://e.org/x", "sample"⟩ "coco" :=
  relevance_title_monotonic "coco" "COCO data" "other data"
    "https://e.org/x" "sample" (by decide) (by decide) (by decide)

/-- Every artifact contributes exactly one entry, in order, to
written_files. -/
theorem write_loop_names (wOk : String → Bool) :
    ∀ (arts : List (String × String)) (fs : FS),
      ((write_loop fs wOk arts).1).map Prod.fst = arts.map Prod.fst := by
  intro arts
  induction arts with
  | nil => intro fs; rfl
  | cons a rest ih =>
    intro fs
    obtain ⟨fn, c⟩ := a
    simp only [write_loop, List.map_cons, List.cons.injEq, true_and]
    rw [ih]

/-- An entry counts toward success exactly when its status is written or
unchanged. -/
theorem entry_success_iff (e : String × WriteStatus) :
    (e.2 == WriteStatus.written || e.2 == WriteStatus.unchanged) = true ↔
      (e.2 = .written ∨ e.2 = .unchanged) := by
  cases h : e.2 <;> simp

/-- Claim C7: the persist stage returns success exactly when at least one
written_files entry is written or unchanged, it returns failed exactly
when every entry is a failed write (vacuously including the no-artifact
and missing-path early exits, which attempt no writes), and on a real run
(path exists, artifacts present) every artifact gets its own entry —
per-artifact failures are isolated, not aborting. -/
theorem write_outputs_success_iff (pe : Bool)
    (arts : List (String × String)) (fs : FS) (wOk : String → Bool) :
    ((write_outputs_model pe arts fs wOk).1 = .success ↔
       ∃ e ∈ (write_outputs_model pe arts fs wOk).2.1,
         e.2 = WriteStatus.written ∨ e.2 = WriteStatus.unchanged) ∧
    ((write_outputs_model pe arts fs wOk).1 = .failed ↔
       ∀ e ∈ (write_outputs_model pe arts fs wOk).2.1,
         e.2 = WriteStatus.wfailed) ∧
    (pe = true → arts ≠ [] →
       ((write_outputs_model pe arts fs wOk).2.1).map Prod.fst =
         arts.map Prod.fst) := by
  refine ⟨?_, ?_, ?_⟩
  · simp only [write_outputs_model]
    split_ifs with h1 h2 h3
    · simp
    · simp
    · have hz : _ = 0 := beq_iff_eq.mp h3
      rw [List.countP_eq_zero] at hz
      simp only [ProcessingStatus.failed]
      constructor
      · intro h; exact absurd h (by simp)
      · rintro ⟨e, he, hok⟩
        exact absurd ((entry_success_iff e).mpr hok) (by simp [hz e he])
    · have hz : ¬(write_loop fs wOk arts).1.countP
          (fun e => e.2 == WriteStatus.written ||
            e.2 == WriteStatus.unchanged) = 0 := by
        intro hc
        exact h3 (by simpa using hc)
      have hpos := Nat.pos_of_ne_zero hz
      rw [List.countP_pos] at hpos
      obtain ⟨e, he, hq⟩ := hpos
      simp only [true_iff]
      exact ⟨e, he, (entry_success_iff e).mp hq⟩
  · simp only [write_outputs_model]
    split_ifs with h1 h2 h3
    · simp
    · simp
    · have hz : _ = 0 := beq_iff_eq.mp h3
      rw [List.countP_eq_zero] at hz
      simp only [true_iff]
      intro e he
      have := hz e he
      cases hc : e.2 <;> simp_all
    · have hz : ¬(write_loop fs wOk arts).1.countP
          (fun e => e.2 == WriteStatus.written ||
            e.2 == WriteStatus.unchanged) = 0 := by
        intro hc
        exact h3 (by simpa using hc)
      have hpos := Nat.pos_of_ne_zero hz
      rw [List.countP_pos] at hpos
      obtain ⟨e, he, hq⟩ := hpos
      constructor
      · intro h; exact absurd h (by simp)
      · intro hall
        have := hall e he
        rcases (entry_success_iff e).mp hq with h | h <;> rw [this] at h <;>
          simp at h
  · intro hpe hne
    simp only [write_outputs_model]
    rw [if_neg (by simp [hne]), if_neg (by simp [hpe])]
    split_ifs with h3 <;> exact write_loop_names wOk arts fs

/-- Claim C7 witness: with an existing path and two artifacts against an
empty directory, a write oracle that fails the first artifact and accepts
the second yields success with per-artifact entries [wfailed, written];
with an oracle failing both, the stage fails with every entry wfailed. -/
theorem write_outputs_success_iff_witness :
    ((write_outputs_model true [("a", "x"), ("b", "y")] []
        (fun fn => fn == "b")).1 = .success ↔
       ∃ e ∈ (write_outputs_model true [("a", "x"), ("b", "y")] []
           (fun fn => fn == "b")).2.1,
         e.2 = WriteStatus.written ∨ e.2 = WriteStatus.unchanged) ∧
    ((write_outputs_model true [("a", "x"), ("b", "y")] []
        (fun fn => fn == "b")).2.1).map Prod.fst = ["a", "b"] :=
  ⟨(write_outputs_success_iff true [("a", "x"), ("b", "y")] []
      (fun fn => fn == "b")).1,
   ((write_outputs_success_iff true [("a", "x"), ("b", "y")] []
      (fun fn => fn == "b")).2.2 rfl (by decide)).trans (by decide)⟩

/-- Writing a file and reading it back yields the written content. -/
theorem fsGet_fsSet_self (fs : FS) (p c : String) :
    fsGet (fsSet fs p c) p = some c := by
  unfold fsGet fsSet
  rw [List.find?_cons_of_pos _ (by simp)]
  rfl

/-- Persisting a single artifact whose target already holds byte-identical
content: the hash comparison detects no change, no write happens, and the
entry is "unchanged". -/
theorem write_single_unchanged (fs : FS) (wOk : String → Bool)
    (fn c : String) (h : fsGet fs fn = some c) :
    write_artifact fs wOk fn c = (.unchanged, fs) ∧
    write_outputs_model true [(fn, c)] fs wOk =
      (.success, [(fn, .unchanged)], fs) := by
  have hcu : content_unchanged fs fn c = true := by
    simp [content_unchanged, h, sha256hex]
  have hwa : write_artifact fs wOk fn c = (.unchanged, fs) := by
    simp [write_artifact, h, hcu]
  refine ⟨hwa, ?_⟩
  simp [write_outputs_model, write_loop, hwa, List.countP_cons]

/-- Claim C9: persisting a rendered artifact twice in a row is idempotent.
If the target file already holds the identical content, the content-hash
check reports no change, the artifact's written_files entry is
"unchanged", and the directory contents are untouched; and after any
first persist of the artifact (with a working write), the second persist
reports "unchanged" and leaves the directory exactly as the first persist
left it. -/
theorem persist_idempotent (fs : FS) (wOk : String → Bool)
    (fn c : String) :
    (fsGet fs fn = some c →
       write_artifact fs wOk fn c = (.unchanged, fs) ∧
       write_outputs_model true [(fn, c)] fs wOk =
         (.success, [(fn, .unchanged)], fs)) ∧
    (wOk fn = true →
       write_outputs_model true [(fn, c)]
           ((write_outputs_model true [(fn, c)] fs wOk).2.2) wOk =
         (.success, [(fn, .unchanged)],
          (write_outputs_model true [(fn, c)] fs wOk).2.2)) := by
  refine ⟨write_single_unchanged fs wOk fn c, ?_⟩
  intro hok
  have hget : fsGet ((write_outputs_model true [(fn, c)] fs wOk).2.2) fn =
      some c := by
    by_cases hcu : ((fsGet fs fn).isSome && content_unchanged fs fn c) = true
    · have hwa : write_artifact fs wOk fn c = (.unchanged, fs) := by
        simp [write_artifact, hcu]
      have hfs : (write_outputs_model true [(fn, c)] fs wOk).2.2 = fs := by
        simp [write_outputs_model, write_loop, hwa, List.countP_cons]
      rw [hfs]
      obtain ⟨hsome, huc⟩ := (Bool.and_eq_true _ _).mp hcu
      cases hx : fsGet fs fn with
      | none => rw [hx] at hsome; simp at hsome
      | some existing =>
        unfold content_unchanged at huc
        rw [hx] at huc
        simp only [sha256hex, beq_iff_eq] at huc
        rw [huc]
    · have hwa : write_artifact fs wOk fn c =
          (.written, fsSet fs fn c) := by
        rw [write_artifact, if_neg (by simpa using hcu)]
        simp [attempt_write, hok]
      have hfs : (write_outputs_model true [(fn, c)] fs wOk).2.2 =
          fsSet fs fn c := by
        simp [write_outputs_model, write_loop, hwa, List.countP_cons]
      rw [hfs]
      exact fsGet_fsSet_self fs fn c
  exact (write_single_unchanged _ wOk fn c hget).2

/-- Claim C9 witness: the target README.md already holds "x"; persisting
"x" again reports unchanged and rewrites nothing, and a fresh
write-then-rewrite sequence behaves the same way. -/
theorem persist_idempotent_witness :
    (write_artifact [("README.md", "x")] (fun _ => true) "README.md" "x" =
       (.unchanged, [("README.md", "x")]) ∧
     write_outputs_model true [("README.md", "x")] [("README.md", "x")]
         (fun _ => true) =
       (.success, [("README.md", .unchanged)], [("README.md", "x")])) ∧
    write_outputs_model true [("README.md", "x")]
        ((write_outputs_model true [("README.md", "x")] []
            (fun _ => true)).2.2) (fun _ => true) =
      (.success, [("README.md", .unchanged)],
       (write_outputs_model true [("README.md", "x")] []
          (fun _ => true)).2.2) :=
  ⟨(persist_idempotent [("README.md", "x")] (fun _ => true) "README.md"
      "x").1 (by decide),
   (persist_idempotent [] (fun _ => true) "README.md" "x").2 rfl⟩

/-- Membership in a descending insertion. -/
theorem mem_insert_desc (x y : SearchResult × ℚ)
    (l : List (SearchResult × ℚ)) :
    y ∈ insert_desc x l ↔ y = x ∨ y ∈ l := by
  induction l with
  | nil => simp [insert_desc]
  | cons h t ih =>
    by_cases hc : h.2 < x.2
    · simp [insert_desc, hc]
    · simp [insert_desc, hc, ih]
      tauto

/-- Membership in the descending sort. -/
theorem mem_sort_desc (y : SearchResult × ℚ)
    (l : List (SearchResult × ℚ)) :
    y ∈ sort_desc l ↔ y ∈ l := by
  induction l with
  | nil => simp [sort_desc]
  | cons h t ih => simp [sort_desc, mem_insert_desc, ih]

/-- Descending insertion preserves descending order. -/
theorem pairwise_insert_desc (x : SearchResult × ℚ)
    (l : List (SearchResult × ℚ))
    (hl : l.Pairwise (fun a b => b.2 ≤ a.2)) :
    (insert_desc x l).Pairwise (fun a b => b.2 ≤ a.2) := by
  induction l with
  | nil => simp [insert_desc]
  | cons h t ih =>
    rw [List.pairwise_cons] at hl
    obtain ⟨hh, ht⟩ := hl
    by_cases hc : h.2 < x.2
    · rw [insert_desc, if_pos hc, List.pairwise_cons]
      refine ⟨?_, List.pairwise_cons.mpr ⟨hh, ht⟩⟩
      intro y hy
      rcases List.mem_cons.mp hy with hy | hy
      · rw [hy]; exact le_of_lt hc
      · exact le_trans (hh y hy) (le_of_lt hc)
    · rw [insert_desc, if_neg hc, List.pairwise_cons]
      refine ⟨?_, ih ht⟩
      intro y hy
      rcases (mem_insert_desc x y t).mp hy with hy | hy
      · rw [hy]; exact le_of_not_lt hc
      · exact hh y hy

/-- The descending sort is sorted by descending score. -/
theorem pairwise_sort_desc (l : List (SearchResult × ℚ)) :
    (sort_desc l).Pairwise (fun a b => b.2 ≤ a.2) := by
  induction l with
  | nil => simp [sort_desc]
  | cons h t ih => exact pairwise_insert_desc h (sort_desc t) ih

/-- A result with no scoring signal at all scores exactly zero. -/
theorem score_zero_of_no_signal (r : SearchResult) (dataset_name : String)
    (h : has_signal r dataset_name = false) :
    relevance_score r dataset_name = 0 := by
  unfold has_signal at h
  simp only [Bool.or_eq_false_iff] at h
  obtain ⟨⟨⟨⟨h1, h2⟩, h3⟩, h4⟩, h5⟩ := h
  have hdom : domain_bonus (lowerL r.url) = 0 := by
    unfold domain_bonus
    rw [List.find?_eq_none.mpr]
    intro d hd
    rw [List.any_eq_false] at h4
    simp [h4 d hd]
  have hkw : keyword_bonus (text_to_check r.title r.snippet) = 0 := by
    unfold keyword_bonus
    rw [List.filter_eq_nil_iff.mpr]
    · rfl
    · intro k hk
      rw [List.any_eq_false] at h5
      simp [h5 k hk]
  simp only [relevance_score]
  rw [h1, h2, h3, hdom, hkw]
  norm_num

/-- Claim C10: the result filter keeps exactly the results whose relevance
score is strictly positive (each output entry carries its own score),
returns them in descending score order, and a result with no dataset-name
match, no high-trust domain and no relevance keyword — scoring zero — is
discarded entirely, regardless of how few results there are. -/
theorem filter_results_spec (rs : List SearchResult)
    (dataset_name : String) :
    (∀ e ∈ filter_results rs dataset_name,
       0 < e.2 ∧ e.2 = relevance_score e.1 dataset_name) ∧
    (filter_results rs dataset_name).Pairwise (fun a b => b.2 ≤ a.2) ∧
    (∀ r : SearchResult, has_signal r dataset_name = false →
       ∀ q : ℚ, (r, q) ∉ filter_results rs dataset_name) := by
  have hmem : ∀ e ∈ filter_results rs dataset_name,
      0 < e.2 ∧ e.2 = relevance_score e.1 dataset_name := by
    intro e he
    rw [filter_results, mem_sort_desc, List.mem_filterMap] at he
    obtain ⟨a, _, hfa⟩ := he
    by_cases h0 : 0 < relevance_score a dataset_name
    · rw [if_pos h0] at hfa
      obtain rfl := Option.some.inj hfa
      exact ⟨h0, rfl⟩
    · rw [if_neg h0] at hfa
      exact absurd hfa (by simp)
  refine ⟨hmem, pairwise_sort_desc _, ?_⟩
  intro r hr q hin
  obtain ⟨hpos, heq⟩ := hmem (r, q) hin
  rw [heq, score_zero_of_no_signal r dataset_name hr] at hpos
  exact absurd hpos (by norm_num)

/-- Claim C10 witness: a result matching neither the dataset name "qqq"
nor any trusted domain nor any keyword is absent from the filtered list,
at any candidate score. -/
theorem filter_results_spec_witness :
    ((⟨"nothing here", "https://x.example", "zzz"⟩ : SearchResult),
      (3 : ℚ)) ∉
      filter_results [⟨"nothing here", "https://x.example", "zzz"⟩] "qqq" :=
  (filter_results_spec [⟨"nothing here", "https://x.example", "zzz"⟩]
    "qqq").2.2 ⟨"nothing here", "https://x.example", "zzz"⟩ (by decide) 3
